import Mathlib

/-!
Verification of the drips SDK core against its specification.

The development shallowly embeds the data model and operations of the
repository: the packed receiver-configuration codec, the receiver-list
normalizers, the validated pass-through operations of the hub client and
the NFT-driver presets, and the subgraph client. Machine integers are
modelled as `Nat` with explicit bit-width bounds; fallible operations
return `Except`; the external call boundary is modelled as an explicit
list of emitted calls.
-/

/-- Error taxonomy of the SDK, modelled as a tagged enumeration as the
specification directs (section 9): MissingArgument, InvalidArgument,
UnsupportedNetwork and Passthrough. -/
inductive DripsErrorKind where
  | missingArgument
  | invalidArgument
  | unsupportedNetwork
  | passthrough
  deriving DecidableEq, Repr

/-- Structured error object: a kind together with the name of the parameter
the failure identifies. -/
structure DripsError where
  kind : DripsErrorKind
  param : String
  deriving DecidableEq, Repr

/-- Structured receiver configuration: dripId (32 bits), amountPerSec
(160 bits), duration (32 bits), start (32 bits). Fields are `Nat` with the
bit-width bounds enforced by validation, mirroring the data model of the
specification (section 3). -/
structure DripsReceiverConfig where
  dripId : Nat
  amountPerSec : Nat
  duration : Nat
  start : Nat
  deriving DecidableEq, Repr

/-- Modelled from the spec: `Utils.DripsReceiverConfiguration.toUint256`
(file `src/utils.ts`, absent from `src/`; only its call sites and tests are
present). Per spec section 4.1, every field must fit its declared bit width,
otherwise the call fails with an `InvalidArgument` error identifying the
overflowing field; on success each field is left-shifted to its position in
the layout dripId (32) | amountPerSec (160) | start (32) | duration (32),
most significant first, and the shifted values are bitwise-ORed. -/
def toUint256 (config : DripsReceiverConfig) : Except DripsError Nat :=
  if 2 ^ 32 ≤ config.dripId then .error ⟨.invalidArgument, "dripId"⟩
  else if 2 ^ 160 ≤ config.amountPerSec then .error ⟨.invalidArgument, "amountPerSec"⟩
  else if 2 ^ 32 ≤ config.duration then .error ⟨.invalidArgument, "duration"⟩
  else if 2 ^ 32 ≤ config.start then .error ⟨.invalidArgument, "start"⟩
  else .ok (config.dripId <<< 224 ||| config.amountPerSec <<< 64 |||
            config.start <<< 32 ||| config.duration)

/-- Modelled from the spec: `Utils.DripsReceiverConfiguration.fromUint256`
(file `src/utils.ts`, absent from `src/`). Per spec section 4.1, each field
is extracted by right-shifting to its position and masking to its width. -/
def fromUint256 (packed : Nat) : DripsReceiverConfig :=
  { dripId := (packed >>> 224) &&& (2 ^ 32 - 1)
    amountPerSec := (packed >>> 64) &&& (2 ^ 160 - 1)
    duration := packed &&& (2 ^ 32 - 1)
    start := (packed >>> 32) &&& (2 ^ 32 - 1) }

/-- A left-shifted value ORed with a value below the shift boundary is their
sum: the bit ranges are disjoint. -/
theorem shiftLeft_lor_eq_add {n : Nat} (a : Nat) {b : Nat} (h : b < 2 ^ n) :
    a <<< n ||| b = a * 2 ^ n + b := by
  rw [Nat.shiftLeft_eq, Nat.mul_comm a (2 ^ n), ← Nat.mul_add_lt_is_or h, Nat.mul_comm]

/-- Masking with an all-ones mask of width `n` is reduction modulo `2 ^ n`. -/
theorem and_mask_eq_mod (x n : Nat) : x &&& (2 ^ n - 1) = x % 2 ^ n := by
  apply Nat.eq_of_testBit_eq
  intro i
  by_cases h : i < n <;>
    simp [Nat.testBit_and, Nat.testBit_mod_two_pow, h, Nat.testBit_two_pow_sub_one]

/-- On in-range fields the packing succeeds and produces the arithmetic sum
of the fields placed at their bit offsets. -/
theorem toUint256_eq_ok (c : DripsReceiverConfig) (h1 : c.dripId < 2 ^ 32)
    (h2 : c.amountPerSec < 2 ^ 160) (h3 : c.duration < 2 ^ 32) (h4 : c.start < 2 ^ 32) :
    toUint256 c =
      .ok (c.dripId * 2 ^ 224 + c.amountPerSec * 2 ^ 64 + c.start * 2 ^ 32 + c.duration) := by
  unfold toUint256
  rw [if_neg (by omega), if_neg (by omega), if_neg (by omega), if_neg (by omega)]
  congr 1
  rw [Nat.lor_assoc, Nat.lor_assoc, shiftLeft_lor_eq_add _ h3,
    shiftLeft_lor_eq_add _ (show c.start * 2 ^ 32 + c.duration < 2 ^ 64 by omega),
    shiftLeft_lor_eq_add _
      (show c.amountPerSec * 2 ^ 64 + (c.start * 2 ^ 32 + c.duration) < 2 ^ 224 by omega)]
  ring

/-- C1: for every valid DripsReceiverConfig (each field a non-negative
integer fitting its declared bit width), decoding the encoding is the
identity: fromUint256 applied to the packed word of toUint256 returns the
original configuration field-for-field. -/
theorem fromUint256_toUint256_roundtrip (c : DripsReceiverConfig)
    (h1 : c.dripId < 2 ^ 32) (h2 : c.amountPerSec < 2 ^ 160)
    (h3 : c.duration < 2 ^ 32) (h4 : c.start < 2 ^ 32) :
    (toUint256 c).map fromUint256 = .ok c := by
  rw [toUint256_eq_ok c h1 h2 h3 h4, Except.map]
  congr 1
  cases c with
  | mk d a du s =>
    simp only at h1 h2 h3 h4
    simp only [fromUint256, DripsReceiverConfig.mk.injEq, and_mask_eq_mod,
      Nat.shiftRight_eq_div_pow]
    refine ⟨by omega, by omega, by omega, by omega⟩

/-- Witness for C1 at the concrete configuration ⟨1, 2, 3, 4⟩. -/
theorem fromUint256_toUint256_roundtrip_witness :
    (toUint256 ⟨1, 2, 3, 4⟩).map fromUint256 = .ok ⟨1, 2, 3, 4⟩ :=
  fromUint256_toUint256_roundtrip ⟨1, 2, 3, 4⟩ (by decide) (by decide) (by decide) (by decide)

/-- C2: packing the configuration with dripId 1, amountPerSec 2, duration 3,
start 4 yields exactly the integer (1 <<< 224) ||| (2 <<< 64) ||| (4 <<< 32) ||| 3:
dripId sits at bit offset 224, amountPerSec at 64, start at 32, duration at 0. -/
theorem toUint256_layout_example :
    toUint256 ⟨1, 2, 3, 4⟩ = .ok ((1 <<< 224) ||| (2 <<< 64) ||| (4 <<< 32) ||| 3) := by
  rfl

/-- C3: whenever some field exceeds its declared bit width, toUint256 fails
with an InvalidArgument error whose parameter names a field that actually
overflows, and never returns a packed value. -/
theorem toUint256_overflow_rejection (c : DripsReceiverConfig)
    (h : 2 ^ 32 ≤ c.dripId ∨ 2 ^ 160 ≤ c.amountPerSec ∨
         2 ^ 32 ≤ c.duration ∨ 2 ^ 32 ≤ c.start) :
    ∃ e : DripsError, toUint256 c = .error e ∧ e.kind = .invalidArgument ∧
      ((e.param = "dripId" ∧ 2 ^ 32 ≤ c.dripId) ∨
       (e.param = "amountPerSec" ∧ 2 ^ 160 ≤ c.amountPerSec) ∨
       (e.param = "duration" ∧ 2 ^ 32 ≤ c.duration) ∨
       (e.param = "start" ∧ 2 ^ 32 ≤ c.start)) := by
  unfold toUint256
  split_ifs with g1 g2 g3 g4
  · exact ⟨_, rfl, rfl, Or.inl ⟨rfl, g1⟩⟩
  · exact ⟨_, rfl, rfl, Or.inr (Or.inl ⟨rfl, g2⟩)⟩
  · exact ⟨_, rfl, rfl, Or.inr (Or.inr (Or.inl ⟨rfl, g3⟩))⟩
  · exact ⟨_, rfl, rfl, Or.inr (Or.inr (Or.inr ⟨rfl, g4⟩))⟩
  · omega

/-- Witness for C3 at dripId equal to 2 ^ 32. -/
theorem toUint256_overflow_rejection_witness :
    ∃ e : DripsError, toUint256 ⟨2 ^ 32, 0, 0, 0⟩ = .error e ∧ e.kind = .invalidArgument ∧
      ((e.param = "dripId" ∧ 2 ^ 32 ≤ (2 ^ 32 : Nat)) ∨
       (e.param = "amountPerSec" ∧ 2 ^ 160 ≤ (0 : Nat)) ∨
       (e.param = "duration" ∧ 2 ^ 32 ≤ (0 : Nat)) ∨
       (e.param = "start" ∧ 2 ^ 32 ≤ (0 : Nat))) :=
  toUint256_overflow_rejection ⟨2 ^ 32, 0, 0, 0⟩ (Or.inl (by decide))

/-- Decimal (base-ten) value of a numeric-string user identifier, used as
the unsigned-integer sort key of the receiver-list normalizers. -/
def decVal (s : String) : Nat :=
  s.data.foldl (fun n c => n * 10 + (c.toNat - 48)) 0

/-- Splits receiver: a decimal-string user identifier together with an
unsigned weight (spec section 3). -/
structure SplitsReceiver where
  userId : String
  weight : Nat
  deriving DecidableEq, Repr

/-- Drips receiver: a decimal-string user identifier together with a packed
configuration word (spec section 3). -/
structure DripsReceiver where
  userId : String
  config : Nat
  deriving DecidableEq, Repr

/-- First-seen deduplication by numeric key: an element is kept exactly when
its key was not seen earlier in the traversal. -/
def dedupByKey (key : α → Nat) : List Nat → List α → List α
  | _, [] => []
  | seen, r :: rs =>
    if key r ∈ seen then dedupByKey key seen rs
    else r :: dedupByKey key (key r :: seen) rs

/-- Ascending insertion sort by numeric key. -/
def sortByKey (key : α → Nat) (l : List α) : List α :=
  List.insertionSort (fun a b => key a ≤ key b) l

/-- Modelled from the spec: `formatSplitReceivers` (the normalizer of
`src/common/internals.ts`, absent from `src/`; the spec calls it
`normalizeSplits`). Per spec section 4.2 it drops entries whose `userId`
was already seen (first-seen occurrence wins) and sorts ascending by
`userId` compared as an unsigned integer. -/
def formatSplitReceivers (receivers : List SplitsReceiver) : List SplitsReceiver :=
  sortByKey (fun r => decVal r.userId) (dedupByKey (fun r => decVal r.userId) [] receivers)

/-- Modelled from the spec: `formatDripsReceivers` (the normalizer of
`src/common/internals.ts`, absent from `src/`; the spec calls it
`normalizeDripsReceivers`). Same ordering and deduplication contract as the
splits normalizer, with the sort key `userId` ascending; records are passed
through otherwise unchanged. -/
def formatDripsReceivers (receivers : List DripsReceiver) : List DripsReceiver :=
  sortByKey (fun r => decVal r.userId) (dedupByKey (fun r => decVal r.userId) [] receivers)

/-- Every element surviving deduplication is an element of the input. -/
theorem mem_of_mem_dedupByKey {key : α → Nat} :
    ∀ (seen : List Nat) (l : List α) (x : α), x ∈ dedupByKey key seen l → x ∈ l := by
  intro seen l
  induction l generalizing seen with
  | nil => intro x h; simp [dedupByKey] at h
  | cons a l ih =>
    intro x h
    rw [dedupByKey] at h
    split at h
    · exact List.mem_cons_of_mem a (ih seen x h)
    · rcases List.mem_cons.mp h with h | h
      · exact h ▸ List.mem_cons_self a l
      · exact List.mem_cons_of_mem a (ih _ x h)

/-- After deduplication the keys are pairwise distinct and avoid every key
already seen. -/
theorem dedupByKey_nodup_keys {key : α → Nat} :
    ∀ (seen : List Nat) (l : List α),
      ((dedupByKey key seen l).map key).Nodup ∧
        ∀ x ∈ dedupByKey key seen l, key x ∉ seen := by
  intro seen l
  induction l generalizing seen with
  | nil => simp [dedupByKey]
  | cons a l ih =>
    rw [dedupByKey]
    split
    · rcases ih seen with ⟨h1, h2⟩
      exact ⟨h1, h2⟩
    · rcases ih (key a :: seen) with ⟨h1, h2⟩
      refine ⟨List.nodup_cons.mpr ⟨?_, h1⟩, ?_⟩
      · intro hmem
        rcases List.mem_map.mp hmem with ⟨x, hx, hkx⟩
        exact h2 x hx (hkx ▸ List.mem_cons_self _ _)
      · intro x hx
        rcases List.mem_cons.mp hx with rfl | hx
        · assumption
        · intro hseen
          exact h2 x hx (List.mem_cons_of_mem _ hseen)

/-- A list sorted weakly by key whose keys are pairwise distinct is sorted
strictly by key. -/
theorem pairwise_lt_of_pairwise_le_nodup {key : α → Nat} :
    ∀ {l : List α}, l.Pairwise (fun a b => key a ≤ key b) →
      (l.map key).Nodup → l.Pairwise (fun a b => key a < key b) := by
  intro l
  induction l with
  | nil => intro _ _; exact List.Pairwise.nil
  | cons a l ih =>
    intro hle hnd
    rcases List.pairwise_cons.mp hle with ⟨hall, hle'⟩
    rcases List.nodup_cons.mp hnd with ⟨hna, hnd'⟩
    refine List.pairwise_cons.mpr ⟨?_, ih hle' hnd'⟩
    intro b hb
    refine Nat.lt_of_le_of_ne (hall b hb) ?_
    intro heq
    exact hna (heq ▸ List.mem_map_of_mem key hb)

/-- The generic normalizer produces a strictly increasing key sequence. -/
theorem sortByKey_dedup_pairwise_lt (key : α → Nat) (l : List α) :
    (sortByKey key (dedupByKey key [] l)).Pairwise (fun a b => key a < key b) := by
  haveI : IsTotal α (fun a b => key a ≤ key b) := ⟨fun a b => Nat.le_total _ _⟩
  haveI : IsTrans α (fun a b => key a ≤ key b) := ⟨fun a b c => Nat.le_trans⟩
  apply pairwise_lt_of_pairwise_le_nodup
  · exact List.sorted_insertionSort _ _
  · have hperm := List.perm_insertionSort (fun a b : α => key a ≤ key b) (dedupByKey key [] l)
    have := (hperm.map key).nodup_iff
    exact this.mpr (dedupByKey_nodup_keys [] l).1

/-- The generic normalizer only keeps records of the input. -/
theorem sortByKey_dedup_subset (key : α → Nat) (l : List α) (x : α)
    (h : x ∈ sortByKey key (dedupByKey key [] l)) : x ∈ l := by
  unfold sortByKey at h
  exact mem_of_mem_dedupByKey [] l x ((List.mem_insertionSort _).mp h)

/-- C4: normalization of splits receivers sorts ascending by userId compared
as an unsigned integer and drops duplicate userId entries keeping the
first-seen occurrence: the documented example yields the two-element list,
every output has strictly increasing userIds, and of two entries sharing a
userId the first-seen one is kept. -/
theorem formatSplitReceivers_sort_dedup :
    formatSplitReceivers [⟨"2", 100⟩, ⟨"1", 1⟩, ⟨"1", 1⟩] = [⟨"1", 1⟩, ⟨"2", 100⟩] ∧
    (∀ rs : List SplitsReceiver,
      (formatSplitReceivers rs).Pairwise (fun a b => decVal a.userId < decVal b.userId)) ∧
    formatSplitReceivers [⟨"1", 5⟩, ⟨"1", 7⟩] = [⟨"1", 5⟩] := by
  refine ⟨by rfl, ?_, by rfl⟩
  intro rs
  exact sortByKey_dedup_pairwise_lt (fun r => decVal r.userId) rs

/-- C5: the drips-receiver normalizer orders by userId compared numerically,
not lexicographically: in any normalized output, an entry with userId "9"
precedes an entry with userId "10". -/
theorem formatDripsReceivers_numeric_order (rs : List DripsReceiver) (i j : Nat)
    (hi : i < (formatDripsReceivers rs).length) (hj : j < (formatDripsReceivers rs).length)
    (h9 : ((formatDripsReceivers rs).get ⟨i, hi⟩).userId = "9")
    (h10 : ((formatDripsReceivers rs).get ⟨j, hj⟩).userId = "10") :
    i < j := by
  have hp : (formatDripsReceivers rs).Pairwise
      (fun a b => decVal a.userId < decVal b.userId) :=
    sortByKey_dedup_pairwise_lt (fun r => decVal r.userId) rs
  rw [List.pairwise_iff_get] at hp
  by_contra hij
  rcases Nat.lt_or_ge j i with hlt | hge
  · have := hp ⟨j, hj⟩ ⟨i, hi⟩ hlt
    rw [h9, h10] at this
    have e9 : decVal "9" = 9 := by rfl
    have e10 : decVal "10" = 10 := by rfl
    omega
  · have : i = j := by omega
    subst this
    rw [h9] at h10
    exact absurd h10 (by decide)

/-- Witness for C5 on the concrete input [⟨"10", 7⟩, ⟨"9", 5⟩]. -/
theorem formatDripsReceivers_numeric_order_witness : (0 : Nat) < 1 :=
  formatDripsReceivers_numeric_order [⟨"10", 7⟩, ⟨"9", 5⟩] 0 1
    (by decide) (by decide) (by decide) (by decide)

/-- C8: the drips-receiver normalizer only reorders and deduplicates: every
record of the output is identical to a record of the input, so its config
word is passed through unchanged. -/
theorem formatDripsReceivers_passthrough (rs : List DripsReceiver) (r : DripsReceiver)
    (h : r ∈ formatDripsReceivers rs) : r ∈ rs := by
  unfold formatDripsReceivers at h
  exact sortByKey_dedup_subset (fun x => decVal x.userId) rs r h

/-- Witness for C8 on a one-element input. -/
theorem formatDripsReceivers_passthrough_witness : (⟨"1", 5⟩ : DripsReceiver) ∈
    ([⟨"1", 5⟩] : List DripsReceiver) :=
  formatDripsReceivers_passthrough [⟨"1", 5⟩] ⟨"1", 5⟩ (by decide)

/-- External contract-call boundary of the hub and driver clients, modelled
as the data of the delegated call (spec section 6). -/
inductive ExtCall where
  | collectableAll (userId : Nat) (erc20Address : String) (currentReceivers : List SplitsReceiver)
  | setSplits (receivers : List SplitsReceiver)
  deriving DecidableEq, Repr

/-- Modelled from the spec: `guardAgainstInvalidAddress` (src/utils.ts,
absent from `src/`). The address-validity predicate itself is an external
collaborator (spec section 6), so it is a parameter; a rejected address
fails with an `InvalidArgument` error carrying the offending value. -/
def guardAgainstInvalidAddress (isValidAddress : String → Bool) (address : String) :
    Except DripsError Unit :=
  if isValidAddress address then .ok () else .error ⟨.invalidArgument, address⟩

/-- `DripsHubClient.getCollectableAll` (src/unnamed/part_000): guards the
ERC20 address, then delegates a single `collectableAll` call. The first
component lists the external calls made, the second the outcome. -/
def getCollectableAll (isValidAddress : String → Bool) (userId : Nat)
    (erc20Address : String) (currentReceivers : List SplitsReceiver) :
    List ExtCall × Except DripsError Unit :=
  match guardAgainstInvalidAddress isValidAddress erc20Address with
  | .error e => ([], .error e)
  | .ok () => ([ExtCall.collectableAll userId erc20Address currentReceivers], .ok ())

/-- Maximum number of splits receivers accepted by validation. Modelled from
the spec: section 4.3 prescribes a receiver-count ceiling without giving the
number; the value is irrelevant to the proved claims. -/
def MAX_SPLITS_RECEIVERS : Nat := 200

/-- Maximum number of drips receivers accepted by validation; as above the
spec gives no number. -/
def MAX_DRIPS_RECEIVERS : Nat := 100

/-- Modelled from the spec: `validateSplitsReceivers` (src/common/validators,
absent from `src/`): enforces the receiver-count ceiling. -/
def validateSplitsReceivers (receivers : List SplitsReceiver) : Except DripsError Unit :=
  if MAX_SPLITS_RECEIVERS < receivers.length then .error ⟨.invalidArgument, "receivers"⟩
  else .ok ()

/-- Modelled from the spec: `AddressDriverClient.setSplits`
(src/AddressDriver/AddressDriverClient.ts, absent from `src/`; its tests
are present). A missing receiver list fails `MissingArgument`; a present
list is validated, normalized and forwarded to the delegated `setSplits`
call — the empty list is a valid receiver-clearing argument. -/
def setSplits (receivers : Option (List SplitsReceiver)) :
    List ExtCall × Except DripsError Unit :=
  match receivers with
  | none => ([], .error ⟨.missingArgument, "receivers"⟩)
  | some rs =>
    match validateSplitsReceivers rs with
    | .error e => ([], .error e)
    | .ok () => ([ExtCall.setSplits (formatSplitReceivers rs)], .ok ())

/-- Drips receiver in parsed form, the shape the validators receive:
part_001 parses each packed config word with fromUint256 before
validating. -/
structure ParsedDripsReceiver where
  userId : String
  config : DripsReceiverConfig
  deriving DecidableEq, Repr

/-- Parse step applied by the presets to every receiver before validation
(src/unnamed/part_001, lines 113 to 120). -/
def parseDripsReceiver (r : DripsReceiver) : ParsedDripsReceiver :=
  ⟨r.userId, fromUint256 r.config⟩

/-- Modelled from the spec: `validateDripsReceivers` (src/common/validators,
absent from `src/`): a missing list fails `MissingArgument` naming the
parameter; a present list is checked against the receiver-count ceiling and
every parsed configuration must fit its field widths. -/
def validateDripsReceivers (paramName : String)
    (receivers : Option (List ParsedDripsReceiver)) : Except DripsError Unit :=
  match receivers with
  | none => .error ⟨.missingArgument, paramName⟩
  | some rs =>
    if MAX_DRIPS_RECEIVERS < rs.length then .error ⟨.invalidArgument, paramName⟩
    else if ∀ r ∈ rs, r.config.dripId < 2 ^ 32 ∧ r.config.amountPerSec < 2 ^ 160 ∧
        r.config.duration < 2 ^ 32 ∧ r.config.start < 2 ^ 32 then .ok ()
    else .error ⟨.invalidArgument, paramName⟩

/-- Modelled from the spec: `validateSetDripsInput` (src/common/validators,
absent from `src/`): validates the token address, both receiver lists and
the transfer-to address, in that order (spec section 4.3 steps 1 and 2). -/
def validateSetDripsInput (isValidAddress : String → Bool) (tokenAddress : String)
    (currentReceivers newReceivers : Option (List ParsedDripsReceiver))
    (transferToAddress : String) : Except DripsError Unit :=
  match guardAgainstInvalidAddress isValidAddress tokenAddress with
  | .error e => .error e
  | .ok () =>
    match validateDripsReceivers "currentReceivers" currentReceivers with
    | .error e => .error e
    | .ok () =>
      match validateDripsReceivers "newReceivers" newReceivers with
      | .error e => .error e
      | .ok () => guardAgainstInvalidAddress isValidAddress transferToAddress

/-- Payload of the new-stream-flow preset (src/unnamed/part_001). Fields the
code explicitly checks for absence are `Option`. -/
structure NewStreamFlowPayload where
  tokenId : Option String
  driverAddress : String
  tokenAddress : String
  currentReceivers : Option (List DripsReceiver)
  newReceivers : Option (List DripsReceiver)
  balanceDelta : Int
  transferToAddress : String
  key : Option String
  value : Option String
  deriving DecidableEq, Repr

/-- Contract-call data encoded into a preset step (src/unnamed/part_001):
the receiver lists of `setDrips` are normalized before encoding. -/
inductive EncodedCall where
  | setDrips (tokenId : String) (tokenAddress : String)
      (currentReceivers : List DripsReceiver) (balanceDelta : Int)
      (newReceivers : List DripsReceiver) (transferToAddress : String)
  | emitUserMetadata (tokenId : String) (key : String) (value : String)
  deriving DecidableEq, Repr

/-- One step of a preset: value, target address and encoded call data
(`CallStruct` of src/unnamed/part_001; the source field `to` is a reserved
token in Lean and is rendered `toAddr`). -/
structure CallStruct where
  value : Nat
  toAddr : String
  data : EncodedCall
  deriving DecidableEq, Repr

/-- `NFTDriverPresets.Presets.createNewStreamFlow` (src/unnamed/part_001):
checks the payload and tokenId are present, validates the set-drips input on
the parsed receivers and then the metadata key and value, and only then
builds the preset of two encoded calls, with both receiver lists normalized
by `formatDripsReceivers`. The first component is the returned preset,
empty when validation fails. -/
def createNewStreamFlow (isValidAddress : String → Bool)
    (payload : Option NewStreamFlowPayload) : List CallStruct × Except DripsError Unit :=
  match payload with
  | none => ([], .error ⟨.missingArgument, "payload"⟩)
  | some p =>
    match p.tokenId with
    | none => ([], .error ⟨.invalidArgument, "tokenId"⟩)
    | some tokenId =>
      match validateSetDripsInput isValidAddress p.tokenAddress
          (p.currentReceivers.map (List.map parseDripsReceiver))
          (p.newReceivers.map (List.map parseDripsReceiver)) p.transferToAddress with
      | .error e => ([], .error e)
      | .ok () =>
        match p.key, p.value with
        | none, _ => ([], .error ⟨.missingArgument, "key"⟩)
        | some _, none => ([], .error ⟨.missingArgument, "value"⟩)
        | some key, some value =>
          ([{ value := 0, toAddr := p.driverAddress,
              data := .setDrips tokenId p.tokenAddress
                (formatDripsReceivers (p.currentReceivers.getD [])) p.balanceDelta
                (formatDripsReceivers (p.newReceivers.getD [])) p.transferToAddress },
            { value := 0, toAddr := p.driverAddress,
              data := .emitUserMetadata tokenId key value }], .ok ())

/-- C6: normalizing the empty receiver list returns the empty list, and the
empty list is a valid receiver-clearing argument forwarded to the delegated
setSplits call, whereas a missing (undefined) receiver list fails with a
MissingArgument error and no delegated call occurs. -/
theorem setSplits_empty_vs_undefined :
    formatSplitReceivers [] = [] ∧
    setSplits (some []) = ([ExtCall.setSplits []], .ok ()) ∧
    setSplits none = ([], .error ⟨.missingArgument, "receivers"⟩) :=
  ⟨rfl, rfl, rfl⟩

/-- C7: for the modelled public operations, every validation failure is
raised before the external boundary is reached: whenever the outcome is an
error, the list of emitted external calls (for getCollectableAll and
setSplits) respectively the returned preset (for createNewStreamFlow) is
empty, so no partial submission occurs. -/
theorem validation_before_delegation :
    (∀ (valid : String → Bool) (userId : Nat) (addr : String) (rs : List SplitsReceiver)
      (e : DripsError), (getCollectableAll valid userId addr rs).2 = .error e →
      (getCollectableAll valid userId addr rs).1 = []) ∧
    (∀ (valid : String → Bool) (payload : Option NewStreamFlowPayload) (e : DripsError),
      (createNewStreamFlow valid payload).2 = .error e →
      (createNewStreamFlow valid payload).1 = []) ∧
    (∀ (receivers : Option (List SplitsReceiver)) (e : DripsError),
      (setSplits receivers).2 = .error e → (setSplits receivers).1 = []) := by
  refine ⟨?_, ?_, ?_⟩
  · intro valid userId addr rs e h
    simp only [getCollectableAll] at h ⊢
    cases hg : guardAgainstInvalidAddress valid addr with
    | error e2 => simp [hg]
    | ok u => cases u; simp only [hg] at h; simp at h
  · intro valid payload e h
    cases payload with
    | none => rfl
    | some p =>
      simp only [createNewStreamFlow] at h ⊢
      cases htok : p.tokenId with
      | none => simp [htok]
      | some tokenId =>
        simp only [htok] at h ⊢
        cases hv : validateSetDripsInput valid p.tokenAddress
            (p.currentReceivers.map (List.map parseDripsReceiver))
            (p.newReceivers.map (List.map parseDripsReceiver)) p.transferToAddress with
        | error e2 => simp [hv]
        | ok u =>
          cases u
          simp only [hv] at h ⊢
          cases hk : p.key with
          | none => simp [hk]
          | some key =>
            simp only [hk] at h ⊢
            cases hval : p.value with
            | none => simp [hval]
            | some value => simp only [hval] at h; simp at h
  · intro receivers e h
    cases receivers with
    | none => rfl
    | some rs =>
      simp only [setSplits] at h ⊢
      cases hv : validateSplitsReceivers rs with
      | error e2 => simp [hv]
      | ok u => cases u; simp only [hv] at h; simp at h

/-- Witness for C7: an always-rejecting address predicate makes
getCollectableAll fail with no external call emitted. -/
theorem validation_before_delegation_witness :
    (getCollectableAll (fun _ => false) 1 "0x0" []).1 = [] :=
  validation_before_delegation.1 (fun _ => false) 1 "0x0" []
    ⟨.invalidArgument, "0x0"⟩ (by rfl)

/-- An HTTP response as seen by the subgraph client: a numeric status, the
status text and the parsed JSON body, the latter kept abstract. -/
structure HttpResponse (β : Type) where
  status : Nat
  statusText : String
  body : β
  deriving DecidableEq, Repr

/-- `DripsSubgraphClient.query` (src/src/DripsSubgraphClient.ts, lines 90 to
104): returns the parsed body when the HTTP status satisfies
`200 ≤ status ≤ 299`, otherwise raises an error built from the status
text. -/
def query {β : Type} (resp : HttpResponse β) : Except String β :=
  if 200 ≤ resp.status ∧ resp.status ≤ 299 then .ok resp.body
  else .error ("Subgraph query failed: " ++ resp.statusText)

/-- The user object of the `getUserAssetConfigs` response shape; the list of
configurations is optional to model an absent JSON field. -/
structure AssetConfigsUser (α : Type) where
  assetConfigs : Option (List α)
  deriving DecidableEq, Repr

/-- The user object of the `getSplitEntries` response shape. -/
structure SplitsEntriesUser (α : Type) where
  splitsEntries : Option (List α)
  deriving DecidableEq, Repr

/-- A response body wrapping an optional user object, as produced by the
user-scoped subgraph queries. -/
structure UserResponse (γ : Type) where
  user : Option γ
  deriving DecidableEq, Repr

/-- The envelope of a GraphQL response: an optional `data` member. -/
structure ApiBody (γ : Type) where
  data : Option γ
  deriving DecidableEq, Repr

/-- `DripsSubgraphClient.getUserAssetConfigs` (src/src/DripsSubgraphClient.ts,
lines 42 to 54): queries, takes `data?.user`, and returns
`user?.assetConfigs || []`. -/
def getUserAssetConfigs {α : Type}
    (resp : HttpResponse (ApiBody (UserResponse (AssetConfigsUser α)))) :
    Except String (List α) :=
  (query resp).map fun response =>
    match response.data.bind (fun d => d.user) with
    | none => []
    | some u => u.assetConfigs.getD []

/-- `DripsSubgraphClient.getSplitEntries` (src/src/DripsSubgraphClient.ts,
lines 76 to 88): queries, takes `data?.user`, and returns
`user?.splitsEntries || []`. -/
def getSplitEntries {α : Type}
    (resp : HttpResponse (ApiBody (UserResponse (SplitsEntriesUser α)))) :
    Except String (List α) :=
  (query resp).map fun response =>
    match response.data.bind (fun d => d.user) with
    | none => []
    | some u => u.splitsEntries.getD []

/-- C9: the subgraph query returns the parsed body exactly when the HTTP
status lies in the 2xx range (200 to 299 inclusive), and raises an error for
every status outside that range. -/
theorem query_status_range {β : Type} (resp : HttpResponse β) :
    (query resp = .ok resp.body ↔ 200 ≤ resp.status ∧ resp.status ≤ 299) ∧
    (resp.status < 200 ∨ 299 < resp.status →
      query resp = .error ("Subgraph query failed: " ++ resp.statusText)) := by
  constructor
  · constructor
    · intro h
      by_contra hc
      rw [query, if_neg hc] at h
      exact absurd h (by simp)
    · intro h
      rw [query, if_pos h]
  · intro h
    rw [query, if_neg (by omega)]

/-- Witness for C9 at status 404. -/
theorem query_status_range_witness :
    query (HttpResponse.mk 404 "Not Found" (0 : Nat)) =
      .error ("Subgraph query failed: " ++ "Not Found") :=
  (query_status_range (HttpResponse.mk 404 "Not Found" (0 : Nat))).2 (by decide)

/-- C10: on a successful (2xx) response whose body contains no user object,
or whose user object has an absent or empty entry list, getUserAssetConfigs
and getSplitEntries return the empty list, never an error and never an
absent value. -/
theorem user_collections_default_empty {α : Type} :
    (∀ (resp : HttpResponse (ApiBody (UserResponse (AssetConfigsUser α)))),
      200 ≤ resp.status → resp.status ≤ 299 →
      (resp.body.data.bind (fun d => d.user) = none ∨
        ∃ u, resp.body.data.bind (fun d => d.user) = some u ∧
          (u.assetConfigs = none ∨ u.assetConfigs = some [])) →
      getUserAssetConfigs resp = .ok []) ∧
    (∀ (resp : HttpResponse (ApiBody (UserResponse (SplitsEntriesUser α)))),
      200 ≤ resp.status → resp.status ≤ 299 →
      (resp.body.data.bind (fun d => d.user) = none ∨
        ∃ u, resp.body.data.bind (fun d => d.user) = some u ∧
          (u.splitsEntries = none ∨ u.splitsEntries = some [])) →
      getSplitEntries resp = .ok []) := by
  constructor
  · intro resp h1 h2 h3
    rw [getUserAssetConfigs, query, if_pos ⟨h1, h2⟩, Except.map]
    congr 1
    rcases h3 with h | ⟨u, hu, hcfg⟩
    · rw [h]
    · rw [hu]
      rcases hcfg with h | h <;> simp [h]
  · intro resp h1 h2 h3
    rw [getSplitEntries, query, if_pos ⟨h1, h2⟩, Except.map]
    congr 1
    rcases h3 with h | ⟨u, hu, hcfg⟩
    · rw [h]
    · rw [hu]
      rcases hcfg with h | h <;> simp [h]

/-- Witness for C10 on a 200 response with no user object. -/
theorem user_collections_default_empty_witness :
    getUserAssetConfigs (HttpResponse.mk 200 "OK"
      (ApiBody.mk (γ := UserResponse (AssetConfigsUser Nat)) none)) = .ok [] :=
  user_collections_default_empty.1
    (HttpResponse.mk 200 "OK" (ApiBody.mk none))
    (by decide) (by decide) (Or.inl rfl)
